import Mathlib

/-!
# Event import pipeline of the planner plugin template

A shallow embedding of `importer.go` (`truncateString`, the mapping loop of
`fetchDemoEvents`, `importEventsToCalendar`, `import_events`) and the
properties of the import pipeline proved about it.

Conventions of the embedding:

* a Go `string` is its sequence of bytes (`len` and slicing count bytes);
* a Go `int` is a 64-bit two's-complement integer, an `Int` wrapped by `wrapInt`
  where the source does arithmetic on it;
* a run-time panic is the `.error` of `Except RuntimeError`;
* a Go `error` value is represented by its message, `nil` by `none`;
* everything the plugin obtains from outside (input channel, HTTP transport,
  JSON decoding, host memory, host import function) is a field of `Host`;
  what the plugin does to the outside is an `Effect` in the returned trace.
-/

namespace Importer

/-! ## Strings and machine integers -/

/-- Go `string`: an immutable sequence of bytes. -/
abbrev GoString := List UInt8

/-- The Go string denoted by a string literal, or holding the given text:
its UTF-8 encoding. -/
def goStr (s : String) : GoString := s.data.flatMap String.utf8EncodeChar

/-- Smallest value of Go's `int` (64 bits). -/
def minInt : Int := -9223372036854775808

/-- Largest value of Go's `int` (64 bits). -/
def maxInt : Int := 9223372036854775807

/-- Two's-complement wrap-around of an integer result into the range of `int`. -/
def wrapInt (x : Int) : Int := (x + 9223372036854775808) % 18446744073709551616 - 9223372036854775808

/-- Run-time panics of the embedded code. -/
inductive RuntimeError where
  | sliceBounds (hi : Int) (len : Nat)
  deriving DecidableEq

deriving instance DecidableEq for Except

/-- The slice expression `s[:hi]`: panics unless `0 <= hi <= len(s)`. -/
def sliceTo (s : GoString) (hi : Int) : Except RuntimeError GoString :=
  if 0 ≤ hi ∧ hi ≤ (s.length : Int) then .ok (s.take hi.toNat)
  else .error (.sliceBounds hi s.length)

/-- The function `truncateString` of importer.go. -/
def truncateString (s : GoString) (maxLen : Int) : Except RuntimeError GoString :=
  if (s.length : Int) ≤ maxLen then
    .ok s
  else
    match sliceTo s (wrapInt (maxLen - 3)) with
    | .ok p => .ok (p ++ goStr "...")
    | .error e => .error e

/-! ## Time -/

/-- Go `time.Time` in a location with a fixed offset (UTC, or the numeric
offset of an RFC 3339 timestamp): the instant in nanoseconds since the Unix
epoch and the zone offset in seconds. -/
structure Time where
  unixNano : Int
  zoneOffset : Int
  deriving DecidableEq

/-- Go `time.Duration`: a number of nanoseconds. -/
abbrev Duration := Int

/-- The constant `time.Hour`. -/
def Hour : Duration := 3600000000000

/-- Nanoseconds in one calendar day of a fixed-offset location. -/
def nanosPerDay : Int := 86400000000000

/-- The call `t.AddDate(0, 0, days)`: the same wall-clock time `days` calendar
days later, which in a fixed-offset location is `days` times 24 hours later. -/
def Time.AddDays (t : Time) (days : Int) : Time :=
  { t with unixNano := t.unixNano + days * nanosPerDay }

/-- The method `t.Add(d)`. -/
def Time.Add (t : Time) (d : Duration) : Time :=
  { t with unixNano := t.unixNano + d }

/-- The method `t.Before(u)`: the instant `t` is earlier than `u`. -/
def Time.Before (t u : Time) : Prop := t.unixNano < u.unixNano

instance (t u : Time) : Decidable (t.Before u) := by
  unfold Time.Before
  infer_instance

/-! ## Data model -/

/-- The struct `DemoPost` of importer.go. -/
structure DemoPost where
  ID : Int
  Title : GoString
  Body : GoString
  UserID : Int
  deriving DecidableEq

/-- The job handed over by the host: `pi.ImportJob`. -/
structure ImportJob where
  From : Time
  To : Time
  deriving DecidableEq

/-- A normalized event, `pi.ImportEvent`, with the fields the plugin sets. -/
structure ImportEvent where
  Title : GoString
  StartDate : Time
  EndDate : Time
  Timezone : GoString
  Notes : GoString
  Tags : List GoString
  deriving DecidableEq

/-- The transmission envelope `pi.ImportData`. -/
structure ImportData where
  Events : List ImportEvent
  deriving DecidableEq

/-- The verdict of the host, `pi.ImportResult`. -/
structure ImportResult where
  Success : Bool
  Error : GoString
  deriving DecidableEq

/-- The outbound request, `requester.Request`, with the fields the plugin sets. -/
structure Request where
  Method : GoString
  URL : GoString
  Headers : List (GoString × GoString)
  deriving DecidableEq

/-- The reply of the transport, `requester.Response`, with the field the plugin reads. -/
structure Response where
  Body : List UInt8
  deriving DecidableEq

/-! ## The outside world -/

/-- Everything the plugin obtains from its environment during one invocation.
A failing call is the `.error` carrying the text of the Go `error`. -/
structure Host where
  /-- The call `pdk.InputJSON(&job)`. -/
  inputJSON : Except GoString ImportJob
  /-- The layout-based rendering `t.Format("2006-01-02")`. -/
  formatDate : Time → GoString
  /-- The call `requester.Send(&req, nil)`. -/
  send : Request → Except GoString Response
  /-- The call `json.Unmarshal(resp.Body, &posts)`. -/
  unmarshalPosts : List UInt8 → Except GoString (List DemoPost)
  /-- The call `pdk.AllocateJSON(importData)`; the value is `mem.Offset()`. -/
  allocateJSON : ImportData → Except GoString Nat
  /-- The imported host function `calendarImport` of main.go. -/
  calendarImport : Nat → Nat
  /-- The bytes `pdk.FindMemory(ptr).ReadBytes()`. -/
  readBytes : Nat → List UInt8
  /-- The call `json.Unmarshal(respData, &result)`. -/
  unmarshalResult : List UInt8 → Except GoString ImportResult

/-- Severity of a log record. -/
inductive Level where
  | info
  | error
  deriving DecidableEq

/-- A value of the `map[string]any` attached to a log record. -/
inductive LogValue where
  | str (s : GoString)
  | int (n : Int)
  deriving DecidableEq

/-- The logger made by `logging.NewLogger`. -/
structure Logger where
  name : GoString
  deriving DecidableEq

/-- What the plugin does to its environment, in the order it does it. -/
inductive Effect where
  | log (logger : GoString) (level : Level) (msg : GoString) (data : List (GoString × LogValue))
  | httpSend (req : Request)
  | setError (msg : GoString)
  | hostImport (offset : Nat) (ret : Nat)
  deriving DecidableEq

/-- The method `logger.ErrorWithData`. -/
def Logger.ErrorWithData (l : Logger) (msg : GoString) (data : List (GoString × LogValue)) : Effect :=
  .log l.name .error msg data

/-- The method `logger.InfoWithData`. -/
def Logger.InfoWithData (l : Logger) (msg : GoString) (data : List (GoString × LogValue)) : Effect :=
  .log l.name .info msg data

/-- The method `logger.Error`. -/
def Logger.Error (l : Logger) (msg : GoString) : Effect :=
  .log l.name .error msg []

/-- The verb `%d` of `fmt.Sprintf` on an `int`. -/
def fmtInt (n : Int) : GoString := goStr (toString n)

/-! ## The pipeline -/

/-- The request literal built at the start of `fetchDemoEvents`. -/
def demoRequest : Request :=
  { Method := goStr "GET"
    URL := goStr "https://jsonplaceholder.typicode.com/posts"
    Headers := [(goStr "Accept", goStr "application/json"),
                (goStr "User-Agent", goStr "PlusEV-Plugin/1.0")] }

/-- The body of the mapping loop of `fetchDemoEvents` for the record `post` at
index `i`: the event that is appended. -/
def demoEvent (from_ : Time) (i : Nat) (post : DemoPost) : Except RuntimeError ImportEvent :=
  let eventDate := from_.AddDays (i : Int)
  match truncateString post.Title 50 with
  | .error e => .error e
  | .ok title =>
    match truncateString post.Body 100 with
    | .error e => .error e
    | .ok body =>
      .ok { Title := goStr "Demo Event: " ++ title
            StartDate := eventDate
            EndDate := eventDate.Add Hour
            Timezone := goStr "UTC"
            Notes := goStr "Demo event created from post ID " ++ fmtInt post.ID
                      ++ goStr ". Content: " ++ body
            Tags := [goStr "demo", goStr "example"] }

/-- The loop `for i, post := range posts` of `fetchDemoEvents`, from index `i`
on, with the events appended so far. -/
def mapPosts (from_ : Time) : Nat → List DemoPost → List ImportEvent →
    Except RuntimeError (List ImportEvent)
  | _, [], events => .ok events
  | i, post :: rest, events =>
    if i ≥ 5 then .ok events
    else
      match demoEvent from_ i post with
      | .error e => .error e
      | .ok event => mapPosts from_ (i + 1) rest (events ++ [event])

/-- The function `fetchDemoEvents` of importer.go: the effects, and either a
panic or the returned pair `(events, err)`. -/
def fetchDemoEvents (h : Host) (_logger : Logger) (from_ _to : Time) :
    List Effect × Except RuntimeError (List ImportEvent × Option GoString) :=
  let req := demoRequest
  match h.send req with
  | .error err =>
    ([.httpSend req], .ok ([], some (goStr "failed to send HTTP request: " ++ err)))
  | .ok resp =>
    match h.unmarshalPosts resp.Body with
    | .error err =>
      ([.httpSend req], .ok ([], some (goStr "failed to unmarshal response: " ++ err)))
    | .ok posts =>
      match mapPosts from_ 0 posts [] with
      | .error e => ([.httpSend req], .error e)
      | .ok events => ([.httpSend req], .ok (events, none))

/-- The function `importEventsToCalendar` of importer.go: the effects and the
returned pair `(success, err)`. -/
def importEventsToCalendar (h : Host) (_logger : Logger) (events : List ImportEvent) :
    List Effect × (Bool × Option GoString) :=
  let importData : ImportData := { Events := events }
  match h.allocateJSON importData with
  | .error err =>
    ([], (false, some (goStr "failed to allocate memory for import data: " ++ err)))
  | .ok offset =>
    let ptr := h.calendarImport offset
    let respData := h.readBytes ptr
    match h.unmarshalResult respData with
    | .error err =>
      ([.hostImport offset ptr],
        (false, some (goStr "failed to unmarshal import result: " ++ err)))
    | .ok result =>
      if !result.Success then
        ([.hostImport offset ptr],
          (false, some (goStr "calendar import failed: " ++ result.Error)))
      else
        ([.hostImport offset ptr], (true, none))

/-- The exported function `import_events` of importer.go: the effects, and
either a panic or the returned status code. -/
def import_events (h : Host) : List Effect × Except RuntimeError Int :=
  let logger : Logger := { name := goStr "example-planner-plugin" }
  match h.inputJSON with
  | .error err =>
    ([logger.ErrorWithData (goStr "Failed to parse input JSON") [(goStr "error", .str err)]],
      .ok 1)
  | .ok job =>
    let started := logger.InfoWithData (goStr "Starting event import")
      [(goStr "from", .str (h.formatDate job.From)), (goStr "to", .str (h.formatDate job.To))]
    match fetchDemoEvents h logger job.From job.To with
    | (fx, .error e) => (started :: fx, .error e)
    | (fx, .ok (_, some err)) =>
      (started :: fx ++
        [logger.ErrorWithData (goStr "Failed to fetch events") [(goStr "error", .str err)],
         .setError (goStr "failed to fetch events: " ++ err)],
        .ok 1)
    | (fx, .ok (events, none)) =>
      match importEventsToCalendar h logger events with
      | (ix, (_, some err)) =>
        (started :: fx ++ ix ++
          [logger.ErrorWithData (goStr "Failed to import events to calendar")
            [(goStr "error", .str err)]],
          .ok 1)
      | (ix, (success, none)) =>
        if !success then
          (started :: fx ++ ix ++ [logger.Error (goStr "Calendar import was not successful")],
            .ok 1)
        else
          (started :: fx ++ ix ++
            [logger.InfoWithData (goStr "Successfully imported events")
              [(goStr "count", .int events.length)]],
            .ok 0)

/-- Number of invocations of the host function `calendarImport` in a trace. -/
def hostImportCalls : List Effect → Nat
  | [] => 0
  | .hostImport _ _ :: rest => hostImportCalls rest + 1
  | _ :: rest => hostImportCalls rest

/-- The text made of `n` copies of the two-byte character U+00E9. -/
def accented (n : Nat) : String := String.mk (List.replicate n (Char.ofNat 233))

/-- The title of the mapped event as the specification words it: the fixed
label concatenated with the record's title, the whole truncated to 50. -/
def specTitle (post : DemoPost) : Except RuntimeError GoString :=
  truncateString (goStr "Demo Event: " ++ post.Title) 50

/-- A host whose answers are fixed in advance, for concrete runs: the decoded
job, the reply of the transport, the decoding of its body, the outcome of the
allocation and the decoding of the host's result. -/
def scriptedHost (input : Except GoString ImportJob) (sent : Except GoString Response)
    (posts : Except GoString (List DemoPost)) (alloc : Except GoString Nat)
    (verdict : Except GoString ImportResult) : Host :=
  { inputJSON := input
    formatDate := fun _ => goStr "2024-01-01"
    send := fun _ => sent
    unmarshalPosts := fun _ => posts
    allocateJSON := fun _ => alloc
    calendarImport := fun offset => offset + 1
    readBytes := fun _ => []
    unmarshalResult := fun _ => verdict }

/-- The record with the given title and otherwise fixed fields. -/
def postTitled (title : GoString) : DemoPost :=
  { ID := 1, Title := title, Body := goStr "body", UserID := 1 }

/-- Midnight UTC of 2024-01-01. -/
def jan1 : Time := { unixNano := 1704067200000000000, zoneOffset := 0 }

/-- Midnight UTC of 2024-01-10. -/
def jan10 : Time := { unixNano := 1704844800000000000, zoneOffset := 0 }

/-- The three records of the scenario: titles `A`, sixty letters `a`, and empty. -/
def scenarioPosts : List DemoPost :=
  [postTitled (goStr "A"), postTitled (List.replicate 60 97), postTitled []]

/-- The host of the scenario: job from 2024-01-01 to 2024-01-10, three
records, and a host import that answers with the given verdict. -/
def scenarioHost (verdict : Except GoString ImportResult) : Host :=
  scriptedHost (.ok { From := jan1, To := jan10 }) (.ok { Body := [] }) (.ok scenarioPosts)
    (.ok 64) verdict

/-- Midnight UTC of 9999-12-31, the last day whose year JSON can carry. -/
def dec31of9999 : Time := { unixNano := 253402214400000000000, zoneOffset := 0 }

/-- Whether the instant lies in a year after 9999, which `Time.MarshalJSON` rejects. -/
def afterYear9999 (t : Time) : Bool := decide (253402300800000000000 ≤ t.unixNano)

/-- A host in which job, fetch and response decoding succeed and serializing
the import data fails: the job starts on 9999-12-31, two records come back,
and the second event, one day later, falls in the year 10000, which
`json.Marshal` inside `pdk.AllocateJSON` refuses to encode. -/
def yearOverflowHost : Host :=
  { inputJSON := .ok { From := dec31of9999, To := dec31of9999 }
    formatDate := fun _ => goStr "9999-12-31"
    send := fun _ => .ok { Body := [] }
    unmarshalPosts := fun _ => .ok [postTitled (goStr "A"), postTitled (goStr "B")]
    allocateJSON := fun d =>
      if d.Events.any (fun e => afterYear9999 e.StartDate || afterYear9999 e.EndDate) then
        .error (goStr "Time.MarshalJSON: year outside of range [0,9999]")
      else .ok 64
    calendarImport := fun offset => offset + 1
    readBytes := fun _ => []
    unmarshalResult := fun _ => .ok { Success := true, Error := [] } }

/-- The logger of the plugin. -/
def pluginLogger : Logger := { name := goStr "example-planner-plugin" }

/-- The verdict of a host that refuses the import for lack of quota. -/
def quotaExceeded : ImportResult := { Success := false, Error := goStr "quota exceeded" }

/-- Width in bytes of the first character of a byte sequence as Go's
`unicode/utf8` decodes it: the length of a well-formed UTF-8 sequence, and 1
for a byte that does not start one. -/
def runeSize : List UInt8 → Nat
  | [] => 0
  | c :: rest =>
    let b := c.toNat
    if b < 0xC2 then 1
    else if b < 0xE0 then
      match rest with
      | c1 :: _ => if 0x80 ≤ c1.toNat ∧ c1.toNat ≤ 0xBF then 2 else 1
      | _ => 1
    else if b < 0xF0 then
      let lo := if b = 0xE0 then 0xA0 else 0x80
      let hi := if b = 0xED then 0x9F else 0xBF
      match rest with
      | c1 :: c2 :: _ =>
        if lo ≤ c1.toNat ∧ c1.toNat ≤ hi ∧ 0x80 ≤ c2.toNat ∧ c2.toNat ≤ 0xBF then 3 else 1
      | _ => 1
    else if b < 0xF5 then
      let lo := if b = 0xF0 then 0x90 else 0x80
      let hi := if b = 0xF4 then 0x8F else 0xBF
      match rest with
      | c1 :: c2 :: c3 :: _ =>
        if lo ≤ c1.toNat ∧ c1.toNat ≤ hi ∧ 0x80 ≤ c2.toNat ∧ c2.toNat ≤ 0xBF
            ∧ 0x80 ≤ c3.toNat ∧ c3.toNat ≤ 0xBF then 4 else 1
      | _ => 1
    else 1

/-- Number of characters decoded from a byte sequence in at most `fuel` steps. -/
def runeCountFrom : Nat → List UInt8 → Nat
  | 0, _ => 0
  | _, [] => 0
  | fuel + 1, c :: rest => 1 + runeCountFrom fuel ((c :: rest).drop (runeSize (c :: rest)))

/-- The function `utf8.RuneCountInString` of Go's standard library: the number
of characters of a string, each ill-formed byte counting as one character.
Every step consumes at least one byte, so `len(s)` steps decode all of `s`. -/
def runeCount (s : GoString) : Nat := runeCountFrom s.length s

/-- The text made of `n` copies of the four-byte character U+1F600. -/
def grinning (n : Nat) : String := String.mk (List.replicate n (Char.ofNat 128512))

/-! ## Shared lemmas -/

theorem goStr_dots : goStr "..." = [46, 46, 46] := by decide

theorem wrapInt_of_range (x : Int) (h1 : minInt ≤ x) (h2 : x ≤ maxInt) : wrapInt x = x := by
  unfold wrapInt
  unfold minInt at h1
  unfold maxInt at h2
  omega

theorem truncateString_short (s : GoString) (maxLen : Int) (h : (s.length : Int) ≤ maxLen) :
    truncateString s maxLen = .ok s := by
  unfold truncateString
  rw [if_pos h]

theorem truncateString_long (s : GoString) (maxLen : Int) (h3 : 3 ≤ maxLen)
    (hmax : maxLen ≤ maxInt) (h : maxLen < (s.length : Int)) :
    truncateString s maxLen = .ok (s.take (maxLen - 3).toNat ++ goStr "...") := by
  have hw : wrapInt (maxLen - 3) = maxLen - 3 :=
    wrapInt_of_range _ (by unfold minInt; omega) (by omega)
  unfold truncateString sliceTo
  rw [if_neg (by omega), hw, if_pos (by omega)]

theorem length_take_sub (s : GoString) (maxLen : Int) (h3 : 3 ≤ maxLen)
    (h : maxLen < (s.length : Int)) :
    ((s.take (maxLen - 3).toNat ++ goStr "...").length : Int) = maxLen := by
  rw [goStr_dots]
  simp only [List.length_append, List.length_take, List.length_cons, List.length_nil]
  omega

theorem truncateString_of_three_le (s : GoString) (L : Int) (hL : 3 ≤ L) (hmax : L ≤ maxInt) :
    truncateString s L
      = .ok (if (s.length : Int) ≤ L then s else s.take (L - 3).toNat ++ goStr "...") := by
  by_cases h : (s.length : Int) ≤ L
  · rw [if_pos h, truncateString_short s L h]
  · rw [if_neg h, truncateString_long s L hL hmax (by omega)]

theorem demoEvent_eq (from_ : Time) (i : Nat) (post : DemoPost) :
    demoEvent from_ i post = .ok
      { Title := goStr "Demo Event: " ++
          (if (post.Title.length : Int) ≤ 50 then post.Title
           else post.Title.take 47 ++ goStr "...")
        StartDate := from_.AddDays (i : Int)
        EndDate := (from_.AddDays (i : Int)).Add Hour
        Timezone := goStr "UTC"
        Notes := goStr "Demo event created from post ID " ++ fmtInt post.ID
          ++ goStr ". Content: " ++
          (if (post.Body.length : Int) ≤ 100 then post.Body
           else post.Body.take 97 ++ goStr "...")
        Tags := [goStr "demo", goStr "example"] } := by
  unfold demoEvent
  rw [truncateString_of_three_le post.Title 50 (by decide) (by decide),
    truncateString_of_three_le post.Body 100 (by decide) (by decide)]
  rfl

theorem mapPosts_spec (from_ : Time) :
    ∀ (posts : List DemoPost) (i : Nat) (acc : List ImportEvent),
      ∃ evs, mapPosts from_ i posts acc = .ok (acc ++ evs) ∧
        evs.length = min (5 - i) posts.length ∧
        ∀ k, k < evs.length →
          ∃ p ev, posts[k]? = some p ∧ evs[k]? = some ev ∧
            demoEvent from_ (i + k) p = .ok ev := by
  intro posts
  induction posts with
  | nil =>
    intro i acc
    exact ⟨[], by simp [mapPosts], by simp, by simp⟩
  | cons p rest ih =>
    intro i acc
    by_cases hi : i ≥ 5
    · refine ⟨[], by simp [mapPosts, hi], ?_, by simp⟩
      simp only [List.length_nil, List.length_cons]
      omega
    · obtain ⟨e, he⟩ : ∃ e, demoEvent from_ i p = .ok e := ⟨_, demoEvent_eq from_ i p⟩
      obtain ⟨evs, hrun, hlen, hidx⟩ := ih (i + 1) (acc ++ [e])
      refine ⟨e :: evs, ?_, ?_, ?_⟩
      · rw [mapPosts, if_neg hi, he]
        simp only []
        rw [hrun, List.append_assoc]
        rfl
      · simp only [List.length_cons, hlen]
        omega
      · intro k hk
        cases k with
        | zero => exact ⟨p, e, by simp, by simp, he⟩
        | succ k =>
          obtain ⟨q, ev, hq, hev, hd⟩ := hidx k (by simpa using hk)
          refine ⟨q, ev, by simpa using hq, by simpa using hev, ?_⟩
          rw [← hd]
          congr 1
          omega

theorem mapPosts_zero (from_ : Time) (posts : List DemoPost) :
    ∃ events, mapPosts from_ 0 posts [] = .ok events ∧
      events.length = min 5 posts.length ∧
      ∀ k, k < events.length →
        ∃ p ev, posts[k]? = some p ∧ events[k]? = some ev ∧ demoEvent from_ k p = .ok ev := by
  obtain ⟨evs, hrun, hlen, hidx⟩ := mapPosts_spec from_ posts 0 []
  refine ⟨evs, by simpa using hrun, by simpa using hlen, ?_⟩
  intro k hk
  obtain ⟨p, ev, hp, hev, hd⟩ := hidx k hk
  exact ⟨p, ev, hp, hev, by simpa using hd⟩

theorem fetchDemoEvents_of_posts (h : Host) (lg : Logger) (from_ to_ : Time) (resp : Response)
    (posts : List DemoPost) (events : List ImportEvent)
    (hsend : h.send demoRequest = .ok resp) (hdec : h.unmarshalPosts resp.Body = .ok posts)
    (hmap : mapPosts from_ 0 posts [] = .ok events) :
    fetchDemoEvents h lg from_ to_ = ([.httpSend demoRequest], .ok (events, none)) := by
  unfold fetchDemoEvents
  simp only [hsend, hdec, hmap]

theorem startDate_of_event (from_ : Time) (k : Nat) (p : DemoPost) (ev : ImportEvent)
    (hd : demoEvent from_ k p = .ok ev) :
    ev.StartDate = from_.AddDays (k : Int) ∧ ev.EndDate = ev.StartDate.Add Hour := by
  rw [demoEvent_eq] at hd
  cases hd
  exact ⟨rfl, rfl⟩

theorem getElem?_lt_length {α : Type} (l : List α) (k : Nat) (a : α) (h : l[k]? = some a) :
    k < l.length := by
  by_contra hn
  rw [List.getElem?_eq_none (by omega)] at h
  cases h

/-! ## Truncation -/

/-- C1, as stated, fails: the text of 26 copies of U+00E9 has 26 characters,
no more than the limit 50, yet it is not returned unchanged: its 52 bytes are
cut to 47 bytes (23 characters and the first byte of the 24th) plus the marker. -/
theorem truncateString_characters_counterexample :
    (accented 26).length ≤ 50 ∧
    truncateString (goStr (accented 26)) 50 ≠ .ok (goStr (accented 26)) ∧
    truncateString (goStr (accented 26)) 50
      = .ok (goStr (accented 23) ++ [195] ++ goStr "...") := by
  decide

/-- C1, amended: for every string `s` and limit `L >= 3`, `truncateString`
returns `s` unchanged when `len(s) <= L` and otherwise the first `L-3` bytes of
`s` followed by the marker `...`, lengths being counted in bytes. -/
theorem truncateString_bytes (s : GoString) (L : Int) (hL : 3 ≤ L) (hmax : L ≤ maxInt) :
    truncateString s L
      = .ok (if (s.length : Int) ≤ L then s else s.take (L - 3).toNat ++ goStr "...") :=
  truncateString_of_three_le s L hL hmax

theorem truncateString_bytes_witness :
    (3 : Int) ≤ 8 ∧ (8 : Int) ≤ maxInt ∧
    truncateString (goStr "Hello, world") 8 = .ok (goStr "Hello...") :=
  ⟨by decide, by decide, truncateString_bytes (goStr "Hello, world") 8 (by decide) (by decide)⟩

/-- C8: truncation is idempotent: whenever `truncateString s L` returns a
value `t`, truncating `t` with the same limit returns `t` again. -/
theorem truncateString_idempotent (s t : GoString) (L : Int)
    (h : truncateString s L = .ok t) : truncateString t L = .ok t := by
  by_cases hs : (s.length : Int) ≤ L
  · rw [truncateString_short s L hs] at h
    cases h
    exact truncateString_short s L hs
  · unfold truncateString sliceTo at h
    rw [if_neg hs] at h
    by_cases hb : 0 ≤ wrapInt (L - 3) ∧ wrapInt (L - 3) ≤ (s.length : Int)
    · rw [if_pos hb] at h
      cases h
      by_cases ht : ((s.take (wrapInt (L - 3)).toNat ++ goStr "...").length : Int) ≤ L
      · exact truncateString_short _ L ht
      · have hlen : (s.take (wrapInt (L - 3)).toNat).length = (wrapInt (L - 3)).toNat := by
          rw [List.length_take]
          omega
        unfold truncateString sliceTo
        rw [if_neg ht, if_pos]
        · rw [List.take_left' hlen]
        · rw [List.length_append, hlen]
          omega
    · rw [if_neg hb] at h
      cases h

theorem truncateString_idempotent_witness :
    truncateString (goStr "Hello, world") 8 = .ok (goStr "Hello...") ∧
    truncateString (goStr "Hello...") 8 = .ok (goStr "Hello...") :=
  ⟨by decide, truncateString_idempotent (goStr "Hello, world") (goStr "Hello...") 8 (by decide)⟩

/-- C9, as stated with lengths in characters, fails: the text of 20 copies of
U+1F600 has 20 characters and 80 bytes; with the limit 50 it is cut to 47
bytes plus the marker, which decode to 17 characters (11 whole ones, 3 stray
bytes and the 3 dots), fewer than `min(20, 50)`. -/
theorem truncateString_length_characters_counterexample :
    (grinning 20).length = 20 ∧ runeCount (goStr (grinning 20)) = 20 ∧
    ∃ t, truncateString (goStr (grinning 20)) 50 = .ok t ∧ t.length = 50 ∧
      runeCount t = 17 ∧ runeCount t < min (runeCount (goStr (grinning 20))) 50 :=
  ⟨by decide, by decide, _, rfl, by decide, by decide, by decide⟩

/-- C9, amended: for every string `s` and limit `L >= 3`, `truncateString`
returns a string whose length in bytes is exactly `min(len(s), L)`, hence at
least `min(len(s), L)` and at most `L`, lengths being counted in bytes. -/
theorem truncateString_length (s : GoString) (L : Int) (hL : 3 ≤ L) (hmax : L ≤ maxInt) :
    ∃ t, truncateString s L = .ok t ∧ (t.length : Int) = min (s.length : Int) L ∧
      min (s.length : Int) L ≤ (t.length : Int) ∧ (t.length : Int) ≤ L := by
  by_cases h : (s.length : Int) ≤ L
  · refine ⟨s, truncateString_short s L h, ?_, ?_, h⟩
    · omega
    · omega
  · have hlen := length_take_sub s L hL (by omega)
    refine ⟨_, truncateString_long s L hL hmax (by omega), ?_, ?_, ?_⟩
    · omega
    · omega
    · omega

theorem truncateString_length_witness :
    (3 : Int) ≤ 8 ∧ (8 : Int) ≤ maxInt ∧
    ∃ t, truncateString (goStr "Hello, world") 8 = .ok t ∧
      (t.length : Int) = min ((goStr "Hello, world").length : Int) 8 ∧
      min ((goStr "Hello, world").length : Int) 8 ≤ (t.length : Int) ∧ (t.length : Int) ≤ 8 :=
  ⟨by decide, by decide, truncateString_length (goStr "Hello, world") 8 (by decide) (by decide)⟩

/-- C10: for a limit in the range of `int` and a string that fits in memory,
`truncateString` panics with an out-of-range slice bound exactly when
`maxLen < 3` and `len(s) > maxLen`, and returns a value for every other
input; for `maxLen >= 3` the bound `maxLen-3` of the slice is within
`0..len(s)` whenever the slice is taken; and for `maxLen = 3` with
`len(s) > 3` the result is exactly the marker `...`. -/
theorem truncateString_panics_iff (s : GoString) (maxLen : Int)
    (hmin : minInt ≤ maxLen) (hmax : maxLen ≤ maxInt) (hs : (s.length : Int) + 3 ≤ maxInt) :
    ((∃ hi, truncateString s maxLen = .error (.sliceBounds hi s.length))
        ↔ (maxLen < 3 ∧ maxLen < (s.length : Int))) ∧
    (¬ (maxLen < 3 ∧ maxLen < (s.length : Int)) → ∃ t, truncateString s maxLen = .ok t) ∧
    (3 ≤ maxLen → maxLen < (s.length : Int) →
      wrapInt (maxLen - 3) = maxLen - 3 ∧ 0 ≤ maxLen - 3 ∧ maxLen - 3 ≤ (s.length : Int)) ∧
    (maxLen = 3 → 3 < (s.length : Int) → truncateString s maxLen = .ok (goStr "...")) := by
  have hok : ¬ (maxLen < 3 ∧ maxLen < (s.length : Int)) →
      ∃ t, truncateString s maxLen = .ok t := by
    intro hn
    by_cases h : (s.length : Int) ≤ maxLen
    · exact ⟨s, truncateString_short s maxLen h⟩
    · exact ⟨_, truncateString_long s maxLen (by omega) hmax (by omega)⟩
  refine ⟨⟨?_, ?_⟩, hok, ?_, ?_⟩
  · rintro ⟨hi, hp⟩
    by_contra hn
    obtain ⟨t, ht⟩ := hok hn
    rw [ht] at hp
    cases hp
  · rintro ⟨h3, hlt⟩
    refine ⟨wrapInt (maxLen - 3), ?_⟩
    have hb : ¬ (0 ≤ wrapInt (maxLen - 3) ∧ wrapInt (maxLen - 3) ≤ (s.length : Int)) := by
      unfold wrapInt
      unfold minInt at hmin
      unfold maxInt at hmax hs
      omega
    unfold truncateString sliceTo
    rw [if_neg (by omega), if_neg hb]
  · intro h3 hlt
    refine ⟨wrapInt_of_range _ (by unfold minInt; omega) (by omega), by omega, by omega⟩
  · intro h3 hlt
    subst h3
    rw [truncateString_long s 3 (by decide) hmax hlt]
    simp

theorem truncateString_panics_iff_witness :
    minInt ≤ 2 ∧ (2 : Int) ≤ maxInt ∧ ((goStr "abc").length : Int) + 3 ≤ maxInt ∧
    (((∃ hi, truncateString (goStr "abc") 2 = .error (.sliceBounds hi (goStr "abc").length))
        ↔ ((2 : Int) < 3 ∧ (2 : Int) < ((goStr "abc").length : Int))) ∧
    (¬ ((2 : Int) < 3 ∧ (2 : Int) < ((goStr "abc").length : Int)) →
      ∃ t, truncateString (goStr "abc") 2 = .ok t) ∧
    ((3 : Int) ≤ 2 → (2 : Int) < ((goStr "abc").length : Int) →
      wrapInt (2 - 3) = 2 - 3 ∧ (0 : Int) ≤ 2 - 3 ∧ (2 : Int) - 3 ≤ ((goStr "abc").length : Int)) ∧
    ((2 : Int) = 3 → (3 : Int) < ((goStr "abc").length : Int) →
      truncateString (goStr "abc") 2 = .ok (goStr "..."))) :=
  ⟨by decide, by decide, by decide,
    truncateString_panics_iff (goStr "abc") 2 (by decide) (by decide) (by decide)⟩

/-! ## Mapping -/

/-- C2, as stated, fails: for a record whose title has 60 characters the
label-plus-title string is longer than 50, yet the mapped title is 62 bytes
long, not 50, and differs from the label-plus-title string truncated to 50. -/
theorem demoEvent_title_counterexample :
    50 < (goStr "Demo Event: " ++ (postTitled (List.replicate 60 97)).Title).length ∧
    ∃ ev, demoEvent jan1 1 (postTitled (List.replicate 60 97)) = .ok ev ∧
      ev.Title.length = 62 ∧ ev.Title.length ≠ 50 ∧
      specTitle (postTitled (List.replicate 60 97)) ≠ .ok ev.Title :=
  ⟨by decide, _, rfl, by decide, by decide, by decide⟩

/-- C2, amended: the title of the mapped event is the fixed label
`Demo Event: ` followed by the record's title truncated to 50 bytes on its
own: when the record's title is longer than 50 bytes the mapped title is the
label, the first 47 bytes of the title and the marker `...`, 62 bytes in
total; otherwise it is label-plus-title unchanged. -/
theorem demoEvent_title (from_ : Time) (i : Nat) (post : DemoPost) :
    ∃ ev, demoEvent from_ i post = .ok ev ∧
      truncateString post.Title 50
        = .ok (if post.Title.length ≤ 50 then post.Title
               else post.Title.take 47 ++ goStr "...") ∧
      (50 < post.Title.length →
        ev.Title = goStr "Demo Event: " ++ post.Title.take 47 ++ goStr "..." ∧
        ev.Title.length = 62) ∧
      (post.Title.length ≤ 50 → ev.Title = goStr "Demo Event: " ++ post.Title) := by
  refine ⟨_, demoEvent_eq from_ i post, ?_, ?_, ?_⟩
  · rw [truncateString_of_three_le post.Title 50 (by decide) (by decide)]
    by_cases h : post.Title.length ≤ 50
    · rw [if_pos h, if_pos (by omega)]
    · rw [if_neg h, if_neg (by omega)]
      rfl
  · intro h
    have hn : ¬ ((post.Title.length : Int) ≤ 50) := by omega
    simp only [if_neg hn]
    refine ⟨by simp, ?_⟩
    have h12 : (goStr "Demo Event: ").length = 12 := by decide
    simp only [List.length_append, List.length_take, h12, goStr_dots, List.length_cons,
      List.length_nil]
    omega
  · intro h
    have hp : (post.Title.length : Int) ≤ 50 := by omega
    simp only [if_pos hp]

/-- C3: when the transport answers and its body decodes to `posts`,
`fetchDemoEvents` returns, without error, exactly `min(5, len(posts))` events,
and the event at position `k` is the one built from the record at position
`k` with index `k`; an empty record list gives an empty event list. -/
theorem fetchDemoEvents_count (h : Host) (lg : Logger) (from_ to_ : Time) (resp : Response)
    (posts : List DemoPost)
    (hsend : h.send demoRequest = .ok resp) (hdec : h.unmarshalPosts resp.Body = .ok posts) :
    ∃ events, (fetchDemoEvents h lg from_ to_).2 = .ok (events, none) ∧
      events.length = min 5 posts.length ∧
      (∀ k, k < events.length →
        ∃ p ev, posts[k]? = some p ∧ events[k]? = some ev ∧ demoEvent from_ k p = .ok ev) ∧
      (posts = [] → events = []) := by
  obtain ⟨events, hmap, hlen, hidx⟩ := mapPosts_zero from_ posts
  refine ⟨events, ?_, hlen, hidx, ?_⟩
  · rw [fetchDemoEvents_of_posts h lg from_ to_ resp posts events hsend hdec hmap]
  · intro hnil
    subst hnil
    exact List.eq_nil_of_length_eq_zero (by simpa using hlen)

theorem fetchDemoEvents_count_witness :
    (scenarioHost (.ok quotaExceeded)).send demoRequest = .ok { Body := [] } ∧
    (scenarioHost (.ok quotaExceeded)).unmarshalPosts [] = .ok scenarioPosts ∧
    ∃ events,
      (fetchDemoEvents (scenarioHost (.ok quotaExceeded)) pluginLogger jan1 jan10).2
        = .ok (events, none) ∧
      events.length = 3 ∧
      (∀ k, k < events.length →
        ∃ p ev, scenarioPosts[k]? = some p ∧ events[k]? = some ev ∧
          demoEvent jan1 k p = .ok ev) ∧
      (scenarioPosts = [] → events = []) :=
  ⟨rfl, rfl,
    fetchDemoEvents_count (scenarioHost (.ok quotaExceeded)) pluginLogger jan1 jan10
      { Body := [] } scenarioPosts rfl rfl⟩

/-- C4: when the transport answers and its body decodes, the event at
position `k` returned by `fetchDemoEvents` starts `k` days after `from` and
ends one hour after it starts; the start dates are strictly increasing, and
they are determined by `from` and the number of records alone, whatever `to`
and the fields of the records are. -/
theorem fetchDemoEvents_dates (h : Host) (lg : Logger) (from_ to_ : Time) (resp : Response)
    (posts : List DemoPost)
    (hsend : h.send demoRequest = .ok resp) (hdec : h.unmarshalPosts resp.Body = .ok posts) :
    ∃ events, (fetchDemoEvents h lg from_ to_).2 = .ok (events, none) ∧
      (∀ (k : Nat) (ev : ImportEvent), events[k]? = some ev →
        ev.StartDate = from_.AddDays (k : Int) ∧
        ev.StartDate.unixNano = from_.unixNano + (k : Int) * 86400000000000 ∧
        ev.EndDate = ev.StartDate.Add Hour ∧
        ev.EndDate.unixNano = ev.StartDate.unixNano + 3600000000000) ∧
      (∀ (j k : Nat) (ej ek : ImportEvent), j < k → events[j]? = some ej → events[k]? = some ek →
        ej.StartDate.Before ek.StartDate) ∧
      events.map (fun ev => ev.StartDate)
        = (List.range (min 5 posts.length)).map (fun (k : Nat) => from_.AddDays (k : Int)) ∧
      (∀ to2, fetchDemoEvents h lg from_ to2 = fetchDemoEvents h lg from_ to_) := by
  obtain ⟨events, hmap, hlen, hidx⟩ := mapPosts_zero from_ posts
  have hstart : ∀ (k : Nat) (ev : ImportEvent), events[k]? = some ev →
      ev.StartDate = from_.AddDays (k : Int) ∧ ev.EndDate = ev.StartDate.Add Hour := by
    intro k ev hev
    obtain ⟨p, ev2, _, hev2, hd⟩ := hidx k (getElem?_lt_length events k ev hev)
    rw [hev] at hev2
    cases hev2
    exact startDate_of_event from_ k p ev hd
  refine ⟨events, ?_, ?_, ?_, ?_, ?_⟩
  · rw [fetchDemoEvents_of_posts h lg from_ to_ resp posts events hsend hdec hmap]
  · intro k ev hev
    obtain ⟨h1, h2⟩ := hstart k ev hev
    refine ⟨h1, ?_, h2, ?_⟩
    · rw [h1]
      rfl
    · rw [h2]
      rfl
  · intro j k ej ek hjk hj hk
    rw [(hstart j ej hj).1, (hstart k ek hk).1]
    unfold Time.Before Time.AddDays nanosPerDay
    simp only []
    omega
  · apply List.ext_getElem?
    intro k
    by_cases hk : k < events.length
    · obtain ⟨p, ev, _, hev, hd⟩ := hidx k hk
      have hr : k < min 5 posts.length := by omega
      simp only [List.getElem?_map, hev, Option.map_some']
      rw [List.getElem?_range hr, (startDate_of_event from_ k p ev hd).1]
      rfl
    · have hr : ¬ k < min 5 posts.length := by omega
      rw [List.getElem?_eq_none (by simpa using hk), List.getElem?_eq_none]
      simp only [List.length_map, List.length_range]
      omega
  · intro to2
    rw [fetchDemoEvents_of_posts h lg from_ to_ resp posts events hsend hdec hmap,
      fetchDemoEvents_of_posts h lg from_ to2 resp posts events hsend hdec hmap]

theorem fetchDemoEvents_dates_witness :
    (scenarioHost (.ok quotaExceeded)).send demoRequest = .ok { Body := [] } ∧
    (scenarioHost (.ok quotaExceeded)).unmarshalPosts [] = .ok scenarioPosts ∧
    ∃ events,
      (fetchDemoEvents (scenarioHost (.ok quotaExceeded)) pluginLogger jan1 jan10).2
        = .ok (events, none) ∧
      events.map (fun ev => ev.StartDate)
        = [jan1, jan1.AddDays 1, jan1.AddDays 2] :=
  ⟨rfl, rfl,
    match fetchDemoEvents_dates (scenarioHost (.ok quotaExceeded)) pluginLogger jan1 jan10
      { Body := [] } scenarioPosts rfl rfl with
    | ⟨events, hrun, _, _, hstarts, _⟩ => ⟨events, hrun, hstarts⟩⟩

/-! ## Result delivery -/

/-- C7: for the response the host hands back, `importEventsToCalendar` returns
`(true, nil)` exactly when the response decodes as an `ImportResult` with
`success = true`; in every other case it returns `false` with a non-nil
error, never `false` with a nil error; and when the response decodes with
`success = false` and message `m`, the error text is
`calendar import failed: ` followed by `m`, so it contains `m`. -/
theorem importEventsToCalendar_verdict (h : Host) (lg : Logger) (events : List ImportEvent)
    (offset : Nat) (halloc : h.allocateJSON { Events := events } = .ok offset) :
    ((importEventsToCalendar h lg events).2 = (true, none) ↔
      ∃ result, h.unmarshalResult (h.readBytes (h.calendarImport offset)) = .ok result ∧
        result.Success = true) ∧
    ((importEventsToCalendar h lg events).2 ≠ (true, none) →
      (importEventsToCalendar h lg events).2.1 = false ∧
      (importEventsToCalendar h lg events).2.2 ≠ none) ∧
    (importEventsToCalendar h lg events).2 ≠ (false, none) ∧
    (∀ result, h.unmarshalResult (h.readBytes (h.calendarImport offset)) = .ok result →
      result.Success = false →
      (importEventsToCalendar h lg events).2
        = (false, some (goStr "calendar import failed: " ++ result.Error)) ∧
      ∃ e pre suf, (importEventsToCalendar h lg events).2.2 = some e ∧
        e = pre ++ result.Error ++ suf) := by
  unfold importEventsToCalendar
  simp only [halloc]
  cases hres : h.unmarshalResult (h.readBytes (h.calendarImport offset)) with
  | error e => simp
  | ok result =>
    cases hsucc : result.Success with
    | false =>
      simp only [hsucc]
      refine ⟨by simp [hsucc], by simp, by simp, ?_⟩
      intro r hr _
      cases hr
      exact ⟨rfl, _, goStr "calendar import failed: ", [], rfl, by simp⟩
    | true =>
      simp only [hsucc]
      refine ⟨by simp [hsucc], by simp, by simp, ?_⟩
      intro r hr hf
      cases hr
      rw [hsucc] at hf
      cases hf

theorem importEventsToCalendar_verdict_witness :
    (scenarioHost (.ok quotaExceeded)).allocateJSON { Events := [] } = .ok 64 ∧
    (importEventsToCalendar (scenarioHost (.ok quotaExceeded)) pluginLogger []).2
      = (false, some (goStr "calendar import failed: quota exceeded")) :=
  ⟨rfl,
    ((importEventsToCalendar_verdict (scenarioHost (.ok quotaExceeded)) pluginLogger [] 64
      rfl).2.2.2 quotaExceeded rfl rfl).1⟩

/-! ## The entry point -/

/-- C5, as stated, fails: with a job starting on 9999-12-31 and two records
the job input decodes, the external fetch returns without transport error,
the response body decodes, and whatever the host hands back decodes with
`success = true`, yet the status is 1, because the mapped events cannot be
serialized. -/
theorem import_events_status_counterexample :
    (∃ job, yearOverflowHost.inputJSON = .ok job) ∧
    (∃ resp, yearOverflowHost.send demoRequest = .ok resp) ∧
    (∃ resp posts, yearOverflowHost.send demoRequest = .ok resp ∧
      yearOverflowHost.unmarshalPosts resp.Body = .ok posts) ∧
    (∀ ptr, ∃ result,
      yearOverflowHost.unmarshalResult (yearOverflowHost.readBytes ptr) = .ok result ∧
      result.Success = true) ∧
    (import_events yearOverflowHost).2 = .ok 1 ∧
    (import_events yearOverflowHost).2 ≠ .ok 0 :=
  ⟨⟨_, rfl⟩, ⟨_, rfl⟩, ⟨_, _, rfl, rfl⟩, fun _ => ⟨_, rfl, rfl⟩, by decide, by decide⟩

/-- C5, amended: `import_events` returns 0 or 1, and it returns 0 exactly when
the job input decodes, the external fetch returns without transport error,
the response body decodes as a record array, the mapped events are serialized
into host memory (`pdk.AllocateJSON` succeeds), the result the host hands back
for them decodes, and the decoded result has `success = true`; in every other
case it returns 1. -/
theorem import_events_status (h : Host) :
    ((import_events h).2 = .ok 0 ∨ (import_events h).2 = .ok 1) ∧
    ((import_events h).2 = .ok 0 ↔
      ∃ job resp posts events offset result,
        h.inputJSON = .ok job ∧
        h.send demoRequest = .ok resp ∧
        h.unmarshalPosts resp.Body = .ok posts ∧
        mapPosts job.From 0 posts [] = .ok events ∧
        h.allocateJSON { Events := events } = .ok offset ∧
        h.unmarshalResult (h.readBytes (h.calendarImport offset)) = .ok result ∧
        result.Success = true) ∧
    ((import_events h).2 ≠ .ok 0 → (import_events h).2 = .ok 1) := by
  cases hin : h.inputJSON with
  | error e => simp [import_events, hin]
  | ok job =>
    cases hsend : h.send demoRequest with
    | error e => simp [import_events, fetchDemoEvents, hin, hsend]
    | ok resp =>
      cases hdec : h.unmarshalPosts resp.Body with
      | error e => simp [import_events, fetchDemoEvents, hin, hsend, hdec]
      | ok posts =>
        obtain ⟨events, hmap, -⟩ := mapPosts_zero job.From posts
        have hf := fun lg =>
          fetchDemoEvents_of_posts h lg job.From job.To resp posts events hsend hdec hmap
        cases halloc : h.allocateJSON { Events := events } with
        | error e =>
          simp [import_events, hin, hf, hsend, hdec, hmap, importEventsToCalendar, halloc]
        | ok offset =>
          cases hres : h.unmarshalResult (h.readBytes (h.calendarImport offset)) with
          | error e =>
            simp [import_events, hin, hf, hsend, hdec, hmap, importEventsToCalendar, halloc,
              hres]
          | ok result =>
            cases hsucc : result.Success with
            | false =>
              simp [import_events, hin, hf, hsend, hdec, hmap, importEventsToCalendar, halloc,
                hres, hsucc]
            | true =>
              simp [import_events, hin, hf, hsend, hdec, hmap, importEventsToCalendar, halloc,
                hres, hsucc]

/-- C6, as stated, fails: with a job starting on 9999-12-31 and two records,
job decoding, the external fetch and response decoding all succeed, yet the
mapped events cannot be serialized, `calendarImport` is not invoked and the
status is 1. -/
theorem hostImport_iff_counterexample :
    (∃ job, yearOverflowHost.inputJSON = .ok job) ∧
    (∃ resp, yearOverflowHost.send demoRequest = .ok resp ∧
      ∃ posts, yearOverflowHost.unmarshalPosts resp.Body = .ok posts) ∧
    hostImportCalls (import_events yearOverflowHost).1 = 0 ∧
    (import_events yearOverflowHost).2 = .ok 1 :=
  ⟨⟨_, rfl⟩, ⟨_, rfl, _, rfl⟩, by decide, by decide⟩

/-- C6, amended: in every run of `import_events` the host function
`calendarImport` is invoked at most once, and it is invoked exactly once if
and only if job decoding, the external fetch, response decoding and the
serialization of the mapped events into host memory (`pdk.AllocateJSON`) all
succeeded; when the fetch returns a transport error the status is 1 and
`calendarImport` is never invoked. -/
theorem hostImport_calls (h : Host) :
    hostImportCalls (import_events h).1 ≤ 1 ∧
    (hostImportCalls (import_events h).1 = 1 ↔
      ∃ job resp posts events offset,
        h.inputJSON = .ok job ∧ h.send demoRequest = .ok resp ∧
        h.unmarshalPosts resp.Body = .ok posts ∧
        mapPosts job.From 0 posts [] = .ok events ∧
        h.allocateJSON { Events := events } = .ok offset) ∧
    (∀ e, h.send demoRequest = .error e →
      (import_events h).2 = .ok 1 ∧ hostImportCalls (import_events h).1 = 0) := by
  cases hin : h.inputJSON with
  | error e =>
    simp [import_events, hin, hostImportCalls, Logger.ErrorWithData]
  | ok job =>
    cases hsend : h.send demoRequest with
    | error e =>
      simp [import_events, fetchDemoEvents, hin, hsend, hostImportCalls,
        Logger.ErrorWithData, Logger.InfoWithData]
    | ok resp =>
      cases hdec : h.unmarshalPosts resp.Body with
      | error e =>
        simp [import_events, fetchDemoEvents, hin, hsend, hdec, hostImportCalls,
          Logger.ErrorWithData, Logger.InfoWithData]
      | ok posts =>
        obtain ⟨events, hmap, -⟩ := mapPosts_zero job.From posts
        have hf := fun lg =>
          fetchDemoEvents_of_posts h lg job.From job.To resp posts events hsend hdec hmap
        cases halloc : h.allocateJSON { Events := events } with
        | error e =>
          simp [import_events, hin, hf, hsend, hdec, hmap, importEventsToCalendar, halloc,
            hostImportCalls, Logger.ErrorWithData, Logger.InfoWithData, Logger.Error]
        | ok offset =>
          cases hres : h.unmarshalResult (h.readBytes (h.calendarImport offset)) with
          | error e =>
            simp [import_events, hin, hf, hsend, hdec, hmap, importEventsToCalendar, halloc,
              hres, hostImportCalls, Logger.ErrorWithData, Logger.InfoWithData, Logger.Error]
          | ok result =>
            cases hsucc : result.Success with
            | false =>
              simp [import_events, hin, hf, hsend, hdec, hmap, importEventsToCalendar, halloc,
                hres, hsucc, hostImportCalls, Logger.ErrorWithData, Logger.InfoWithData,
                Logger.Error]
            | true =>
              simp [import_events, hin, hf, hsend, hdec, hmap, importEventsToCalendar, halloc,
                hres, hsucc, hostImportCalls, Logger.ErrorWithData, Logger.InfoWithData,
                Logger.Error]

end Importer
